import Mathlib

/-!
Verification of the meetify signaling core against its specification.

The embedding below follows the two pieces of the source that the
specified properties are about:

* the per-peer negotiation logic of the client hook
  (`frontend/src/hooks/useWebRTC.ts`): the `offer`, `answer`,
  `ice-candidate` and `user-left` socket handlers together with the
  `makingOffer` / `ignoreOffer` / `pendingCandidates` maps, and the media
  track bookkeeping (`createPeerConnection`, `replaceTrackInPeers`);

* the room-scoped relay of the server
  (`backend/src/signaling/events gateway`): the `participants` map, the
  transport-level room membership, and the `join-room`, `leave-room`,
  `chat-message` and relay handlers.

JavaScript `Map` objects keyed by socket id are embedded as association
lists over `String` with `mget` / `mset` / `merase` mirroring
`Map.get` / `Map.set` / `Map.delete`.
-/

namespace Meetify

/-- Lookup in an association list, as JavaScript `Map.get`. -/
def mget {α : Type} : List (String × α) → String → Option α
  | [], _ => none
  | (k, v) :: t, key => if k = key then some v else mget t key

/-- Overwriting insert, as JavaScript `Map.set`: replaces the value at an
existing key in place, otherwise appends the binding. -/
def mset {α : Type} : List (String × α) → String → α → List (String × α)
  | [], key, v => [(key, v)]
  | (k, w) :: t, key, v => if k = key then (key, v) :: t else (k, w) :: mset t key v

/-- Key removal, as JavaScript `Map.delete` (keys are unique in a `Map`,
so removing every binding of the key is the same operation). -/
def merase {α : Type} : List (String × α) → String → List (String × α)
  | [], _ => []
  | (k, v) :: t, key => if k = key then merase t key else (k, v) :: merase t key

theorem mget_mset_self {α : Type} (m : List (String × α)) (k : String) (v : α) :
    mget (mset m k v) k = some v := by
  induction m with
  | nil => simp [mset, mget]
  | cons h t ih =>
    by_cases hk : h.1 = k
    · simp [mset, hk, mget]
    · simp [mset, hk, mget, ih]

theorem mget_mset_ne {α : Type} (m : List (String × α)) (k k' : String) (v : α)
    (h : k ≠ k') : mget (mset m k v) k' = mget m k' := by
  induction m with
  | nil => simp [mset, mget, h]
  | cons hd t ih =>
    by_cases hk : hd.1 = k
    · simp [mset, hk, mget, h]
    · simp [mset, hk, mget, ih]

theorem mget_merase_self {α : Type} (m : List (String × α)) (k : String) :
    mget (merase m k) k = none := by
  induction m with
  | nil => simp [merase, mget]
  | cons hd t ih =>
    by_cases hk : hd.1 = k
    · simpa [merase, hk] using ih
    · simpa [merase, hk, mget] using ih

theorem mget_merase_ne {α : Type} (m : List (String × α)) (k k' : String)
    (h : k ≠ k') : mget (merase m k) k' = mget m k' := by
  induction m with
  | nil => simp [merase, mget]
  | cons hd t ih =>
    by_cases hk : hd.1 = k
    · simpa [merase, hk, mget, h] using ih
    · by_cases hk' : hd.1 = k'
      · simp [merase, hk, mget, hk', Ne.symm h]
      · simpa [merase, hk, mget, hk'] using ih

theorem length_mset_mem {α : Type} (m : List (String × α)) (k : String) (v : α)
    (h : mget m k ≠ none) : (mset m k v).length = m.length := by
  induction m with
  | nil => simp [mget] at h
  | cons hd t ih =>
    by_cases hk : hd.1 = k
    · simp [mset, hk]
    · have h' : mget t k ≠ none := by simpa [mget, hk] using h
      simp [mset, hk, ih h']

/-! ## Frontend negotiation state (useWebRTC hook)

Session descriptions are opaque payloads; the only structure the handlers
observe is whether a description is an offer or an answer, so we embed
them as a two-constructor inductive carrying an identifying number. -/

inductive Sdp where
  | offer (n : Nat) : Sdp
  | answer (n : Nat) : Sdp
deriving DecidableEq, Repr

/-- An answer produced by createAnswer for a given remote offer. -/
def answerFor : Sdp → Sdp
  | Sdp.offer n => Sdp.answer n
  | Sdp.answer n => Sdp.answer n

/-- ICE candidates are opaque payloads. -/
abbrev Candidate : Type := Nat

/-- RTCPeerConnection signaling states reachable through the handlers. -/
inductive SignalingState where
  | stable : SignalingState
  | haveLocalOffer : SignalingState
  | haveRemoteOffer : SignalingState
deriving DecidableEq, Repr

/-- The observable negotiation state of one RTCPeerConnection: its
signaling state, the descriptions currently set, and the candidates that
have been applied via addIceCandidate, in order of application. -/
structure Pc where
  signalingState : SignalingState
  remoteDesc : Option Sdp
  localDesc : Option Sdp
  applied : List Candidate
deriving DecidableEq, Repr

/-- A freshly constructed RTCPeerConnection. -/
def newPc : Pc :=
  { signalingState := SignalingState.stable, remoteDesc := none,
    localDesc := none, applied := [] }

/-- The per-peer refs of the hook: `peerConnections`, `pendingCandidates`,
`makingOffer` and `ignoreOffer`, each a Map keyed by the peer socket id. -/
structure HookState where
  peers : List (String × Pc)
  pendingCandidates : List (String × List Candidate)
  makingOffer : List (String × Bool)
  ignoreOffer : List (String × Bool)
deriving DecidableEq, Repr

/-- Messages the hook emits back through the socket. -/
inductive ClientOut where
  | answerMsg (target : String) (sdp : Sdp) : ClientOut
  | offerMsg (target : String) (sdp : Sdp) : ClientOut
deriving DecidableEq, Repr

/-- Lexicographic order on character lists, as JavaScript compares
strings: compare unit by unit, the shorter proper-prefix string being
the smaller one. -/
def charListLt : List Char → List Char → Bool
  | _, [] => false
  | [], _ :: _ => true
  | c :: cs, d :: ds =>
      if c < d then true
      else if d < c then false
      else charListLt cs ds

/-- Politeness from the offer handler: `String(socket.id || '') > fromSocketId`,
that is, the local side is polite exactly when its own id compares
lexicographically greater than the peer's. -/
def isPolite (selfId fromId : String) : Bool :=
  charListLt fromId.data selfId.data

/-- Collision test of the offer handler:
`isMakingOffer || pc.signalingState !== 'stable'`. -/
def offerCollision (s : HookState) (fromId : String) (pc : Pc) : Bool :=
  (mget s.makingOffer fromId).getD false
    || decide (pc.signalingState ≠ SignalingState.stable)

/-- Ignore test of the offer handler: `!isPolite && offerCollision`. -/
def shouldIgnoreOffer (selfId fromId : String) (s : HookState) (pc : Pc) : Bool :=
  !(isPolite selfId fromId) && offerCollision s fromId pc

/-- Body of the `offer` handler once the peer connection is at hand:
record the ignore decision, and either drop the offer or apply it as the
remote description (rolling back any in-flight local offer), answer,
emit the answer, and flush the pending candidate queue. -/
def onOfferWithPc (selfId fromId : String) (sdp : Sdp) (s : HookState) (pc : Pc) :
    HookState × List ClientOut :=
  let ignore := shouldIgnoreOffer selfId fromId s pc
  let s1 : HookState := { s with ignoreOffer := mset s.ignoreOffer fromId ignore }
  if ignore then (s1, [])
  else
    let queue := (mget s1.pendingCandidates fromId).getD []
    let pc2 : Pc :=
      { signalingState := SignalingState.stable, remoteDesc := some sdp,
        localDesc := some (answerFor sdp), applied := pc.applied ++ queue }
    ({ s1 with peers := mset s1.peers fromId pc2,
               pendingCandidates := merase s1.pendingCandidates fromId },
     [ClientOut.answerMsg fromId (answerFor sdp)])

/-- The `offer` socket handler: look up the peer connection, creating a
fresh one when none exists, then run the perfect-negotiation body. -/
def onOffer (selfId fromId : String) (sdp : Sdp) (s : HookState) :
    HookState × List ClientOut :=
  match mget s.peers fromId with
  | some pc => onOfferWithPc selfId fromId sdp s pc
  | none =>
      onOfferWithPc selfId fromId sdp
        { s with peers := mset s.peers fromId newPc } newPc

/-- The `answer` socket handler: if a peer connection exists, apply the
answer as the remote description and flush the pending candidate queue;
otherwise do nothing. -/
def onAnswer (fromId : String) (sdp : Sdp) (s : HookState) : HookState :=
  match mget s.peers fromId with
  | none => s
  | some pc =>
      let queue := (mget s.pendingCandidates fromId).getD []
      let pc2 : Pc :=
        { pc with signalingState := SignalingState.stable,
                  remoteDesc := some sdp, applied := pc.applied ++ queue }
      { s with peers := mset s.peers fromId pc2,
               pendingCandidates := merase s.pendingCandidates fromId }

/-- The `ice-candidate` socket handler: drop the candidate outright while
the ignore-offer flag for the sender is set; otherwise apply it at once
when a remote description is present on an existing connection, and
enqueue it onto `pendingCandidates` in every other case. -/
def onIceCandidate (fromId : String) (cand : Candidate) (s : HookState) : HookState :=
  let isIgnoring := (mget s.ignoreOffer fromId).getD false
  if isIgnoring then s
  else
    match mget s.peers fromId with
    | some pc =>
        if pc.remoteDesc.isSome then
          { s with
            peers := mset s.peers fromId { pc with applied := pc.applied ++ [cand] } }
        else
          let queue := (mget s.pendingCandidates fromId).getD []
          { s with
            pendingCandidates := mset s.pendingCandidates fromId (queue ++ [cand]) }
    | none =>
        let queue := (mget s.pendingCandidates fromId).getD []
        { s with
          pendingCandidates := mset s.pendingCandidates fromId (queue ++ [cand]) }

/-- The `user-left` socket handler: close and forget the peer connection
and delete the peer's entries from every per-peer map. -/
def onUserLeft (sid : String) (s : HookState) : HookState :=
  { peers := merase s.peers sid,
    pendingCandidates := merase s.pendingCandidates sid,
    makingOffer := merase s.makingOffer sid,
    ignoreOffer := merase s.ignoreOffer sid }

/-- Completed run of `triggerRenegotiation` toward a peer: the local
offer has been created and set (signaling state `have-local-offer`), the
offer message has been emitted, and the `finally` block has cleared
`makingOffer` back to false. -/
def triggerRenegotiation (targetId : String) (n : Nat) (s : HookState) :
    HookState × List ClientOut :=
  match mget s.peers targetId with
  | none => (s, [])
  | some pc =>
      let pc2 : Pc :=
        { pc with signalingState := SignalingState.haveLocalOffer,
                  localDesc := some (Sdp.offer n) }
      ({ s with peers := mset s.peers targetId pc2,
                makingOffer := mset s.makingOffer targetId false },
       [ClientOut.offerMsg targetId (Sdp.offer n)])

/-! ## Backend signaling gateway

The gateway keeps one `participants` map from socket id to
`{roomId, userId, userName}` and relies on the transport's room
subscription (`client.join`) for fan-out.  `client.to(room)` delivers to
every socket subscribed to the room except the sender; `server.to(x)`
delivers to every socket subscribed to `x`, the sender included. -/

/-- Participant record stored by the gateway. -/
structure PInfo where
  roomId : String
  userId : String
  userName : String
deriving DecidableEq, Repr

/-- Gateway state: the `participants` map plus the transport-level room
subscriptions (room id to the list of subscribed sockets, in join order). -/
structure ServerState where
  participants : List (String × PInfo)
  rooms : List (String × List String)
deriving DecidableEq, Repr

/-- Events a client can receive from the gateway. -/
inductive SEvent where
  | userJoined (socketId userId userName : String) : SEvent
  | userLeft (socketId userId userName : String) : SEvent
  | roomParticipants (ps : List (String × String × String)) : SEvent
  | chatMessage (message userName : String) (timestamp : Nat) : SEvent
  | offerEvt (sdp : Sdp) (fromSocketId : String) : SEvent
  | answerEvt (sdp : Sdp) (fromSocketId : String) : SEvent
  | candidateEvt (candidate : Candidate) (fromSocketId : String) : SEvent
  | forceMute (muted : Bool) : SEvent
  | participantMediaState (socketId mtype : String) (enabled : Bool) : SEvent
deriving DecidableEq, Repr

/-- One delivery: a target socket and the event it receives. -/
structure Delivery where
  target : String
  event : SEvent
deriving DecidableEq, Repr

/-- Sockets currently subscribed to a transport room. -/
def roomMembers (s : ServerState) (roomId : String) : List String :=
  (mget s.rooms roomId).getD []

/-- Transport `client.join(roomId)`: subscribe the socket to the room
(idempotent). -/
def joinTransportRoom (s : ServerState) (client roomId : String) : ServerState :=
  let members := roomMembers s roomId
  if client ∈ members then s
  else { s with rooms := mset s.rooms roomId (members ++ [client]) }

/-- The `join-room` handler: subscribe the socket to the transport room,
overwrite the participant entry, broadcast `user-joined` to the other
room members, and send `room-participants` (every participant of the
room other than the joiner) back to the joiner.  There is no membership
precondition of any kind. -/
def handleJoinRoom (client userId roomId userName : String) (s : ServerState) :
    ServerState × List Delivery :=
  let s1 := joinTransportRoom s client roomId
  let s2 : ServerState :=
    { s1 with participants := mset s1.participants client ⟨roomId, userId, userName⟩ }
  let others := (roomMembers s2 roomId).filter (fun t => t ≠ client)
  let joinedEvts := others.map
    (fun t => Delivery.mk t (SEvent.userJoined client userId userName))
  let listed := (s2.participants.filter
      (fun p => p.2.roomId = roomId && p.1 ≠ client)).map
    (fun p => (p.1, p.2.userId, p.2.userName))
  (s2, joinedEvts ++ [Delivery.mk client (SEvent.roomParticipants listed)])

/-- The `handleDisconnect` body, also invoked verbatim by the
`leave-room` handler: if the socket has a participant entry, broadcast
`user-left` to the other members of its room and delete the entry.  The
transport room subscriptions are left untouched — there is no
`client.leave` call anywhere in the gateway. -/
def handleLeaveRoom (client : String) (s : ServerState) :
    ServerState × List Delivery :=
  match mget s.participants client with
  | none => (s, [])
  | some info =>
      let others := (roomMembers s info.roomId).filter (fun t => t ≠ client)
      ({ s with participants := merase s.participants client },
       others.map (fun t => Delivery.mk t (SEvent.userLeft client info.userId info.userName)))

/-- The `chat-message` handler: broadcast the client-supplied message and
user name, stamped with the server clock, to every socket subscribed to
the named transport room (the sender included when subscribed).  The
sender's membership is never checked and no state changes. -/
def handleChatMessage (roomId message userName : String) (now : Nat)
    (s : ServerState) : ServerState × List Delivery :=
  (s, (roomMembers s roomId).map
    (fun t => Delivery.mk t (SEvent.chatMessage message userName now)))

/-- Messages a client can send to the gateway, one constructor per wire
kind the frontend emits. -/
inductive ClientMsg where
  | joinRoom (roomId userName : String) : ClientMsg
  | offer (targetSocketId : String) (sdp : Sdp) : ClientMsg
  | answer (targetSocketId : String) (sdp : Sdp) : ClientMsg
  | iceCandidate (targetSocketId : String) (candidate : Candidate) : ClientMsg
  | notifyMute (targetSocketId : String) (muted : Bool) : ClientMsg
  | chatMessage (roomId message userName : String) : ClientMsg
  | leaveRoom : ClientMsg
  | mediaStateChange (roomId mtype : String) (enabled : Bool) : ClientMsg
deriving DecidableEq, Repr

/-- Gateway dispatch: one match arm per `SubscribeMessage` handler of the
gateway.  The gateway subscribes exactly to `join-room`, `offer`,
`answer`, `ice-candidate`, `notify-mute`, `chat-message` and
`leave-room`; any other inbound kind — in particular
`media-state-change`, which the frontend emits — has no handler and is
dropped by the framework without touching state or emitting anything. -/
def dispatch (client userId : String) (now : Nat) (msg : ClientMsg)
    (s : ServerState) : ServerState × List Delivery :=
  match msg with
  | ClientMsg.joinRoom roomId userName => handleJoinRoom client userId roomId userName s
  | ClientMsg.offer target sdp => (s, [Delivery.mk target (SEvent.offerEvt sdp client)])
  | ClientMsg.answer target sdp => (s, [Delivery.mk target (SEvent.answerEvt sdp client)])
  | ClientMsg.iceCandidate target cand =>
      (s, [Delivery.mk target (SEvent.candidateEvt cand client)])
  | ClientMsg.notifyMute target muted => (s, [Delivery.mk target (SEvent.forceMute muted)])
  | ClientMsg.chatMessage roomId message userName =>
      handleChatMessage roomId message userName now s
  | ClientMsg.leaveRoom => handleLeaveRoom client s
  | ClientMsg.mediaStateChange _ _ _ => (s, [])

/-! ## Media track bookkeeping (createPeerConnection / replaceTrackInPeers)

Transceivers are pre-created for audio and video; each transceiver owns
one RTP sender, so the sender count of a connection is the number of its
transceivers.  Toggling a capability replaces the track on an existing
sender and only falls back to `addTrack` (which would create a new
transceiver) when no suitable sender exists. -/

inductive MKind where
  | audio : MKind
  | video : MKind
deriving DecidableEq, Repr

/-- A media track: its kind plus an identifying number. -/
structure Track where
  kind : MKind
  tid : Nat
deriving DecidableEq, Repr

/-- A transceiver: the media kind it was created for (the kind of its
receiver track, fixed at creation) and the track currently attached to
its sender, if any. -/
structure Transceiver where
  receiverKind : MKind
  senderTrack : Option Track
deriving DecidableEq, Repr

/-- A peer connection as seen by the media controller: its transceiver
list.  `getSenders()` returns one sender per transceiver. -/
structure MPc where
  transceivers : List Transceiver
deriving DecidableEq, Repr

/-- Track attachment loop of `createPeerConnection`: find a transceiver
with an empty sender whose receiver kind matches the track and replace
its sender track; fall back to `addTrack` (appending a fresh transceiver
of the track's kind) when none matches. -/
def attachTrack : List Transceiver → Track → List Transceiver
  | [], t => [Transceiver.mk t.kind (some t)]
  | tc :: rest, t =>
      if tc.senderTrack = none ∧ tc.receiverKind = t.kind then
        { tc with senderTrack := some t } :: rest
      else
        tc :: attachTrack rest t

/-- `createPeerConnection`: pre-create one audio and one video
transceiver, then attach each local track. -/
def createPeerConnection (localTracks : List Track) : MPc :=
  MPc.mk (localTracks.foldl attachTrack
    [Transceiver.mk MKind.audio none, Transceiver.mk MKind.video none])

/-- Replace the sender track of the first transceiver satisfying a
predicate, leaving the rest of the list untouched. -/
def setFirst (p : Transceiver → Bool) (nt : Track) : List Transceiver → List Transceiver
  | [] => []
  | tc :: rest =>
      if p tc then { tc with senderTrack := some nt } :: rest
      else tc :: setFirst p nt rest

/-- Does this transceiver's sender currently carry a track of the given
kind?  This is the `getSenders().find(s => s.track?.kind === kind)` test. -/
def senderHasKind (k : MKind) (tc : Transceiver) : Bool :=
  match tc.senderTrack with
  | some t => t.kind = k
  | none => false

/-- `replaceTrackInPeers`, restricted to one connection: find a sender by
its current track kind, fall back to the sender of a transceiver of the
right receiver kind, and replace its track; only when neither search
succeeds is `addTrack` reached, appending a fresh transceiver. -/
def replaceTrackInPc (k : MKind) (nt : Track) (pc : MPc) : MPc :=
  if pc.transceivers.any (senderHasKind k) then
    MPc.mk (setFirst (senderHasKind k) nt pc.transceivers)
  else if pc.transceivers.any (fun tc => tc.receiverKind = k) then
    MPc.mk (setFirst (fun tc => tc.receiverKind = k) nt pc.transceivers)
  else
    MPc.mk (pc.transceivers ++ [Transceiver.mk k (some nt)])

/-- Sender count of a connection: one RTP sender per transceiver. -/
def senderCount (pc : MPc) : Nat := pc.transceivers.length

/-- Apply a sequence of capability toggles (each replacing the track of
one kind) to a connection. -/
def applyToggles (ops : List (MKind × Track)) (pc : MPc) : MPc :=
  ops.foldl (fun acc op => replaceTrackInPc op.1 op.2 acc) pc

/-! ## Supporting lemmas for the media model -/

theorem length_setFirst (p : Transceiver → Bool) (nt : Track) (l : List Transceiver) :
    (setFirst p nt l).length = l.length := by
  induction l with
  | nil => rfl
  | cons tc rest ih => by_cases h : p tc <;> simp [setFirst, h, ih]

theorem map_receiverKind_setFirst (p : Transceiver → Bool) (nt : Track)
    (l : List Transceiver) :
    (setFirst p nt l).map Transceiver.receiverKind = l.map Transceiver.receiverKind := by
  induction l with
  | nil => rfl
  | cons tc rest ih => by_cases h : p tc <;> simp [setFirst, h, ih]

theorem replaceTrackInPc_preserves_kinds (k : MKind) (nt : Track) (pc : MPc)
    (h : pc.transceivers.map Transceiver.receiverKind = [MKind.audio, MKind.video]) :
    (replaceTrackInPc k nt pc).transceivers.map Transceiver.receiverKind =
      [MKind.audio, MKind.video] := by
  unfold replaceTrackInPc
  by_cases h1 : pc.transceivers.any (senderHasKind k) = true
  · simp [h1, map_receiverKind_setFirst, h]
  · by_cases h2 : pc.transceivers.any (fun tc => tc.receiverKind = k) = true
    · simp [h1, h2, map_receiverKind_setFirst, h]
    · exfalso
      have hk : k ∈ pc.transceivers.map Transceiver.receiverKind := by
        rw [h]; cases k <;> simp
      rcases List.mem_map.mp hk with ⟨tc, htc, hre⟩
      exact h2 (List.any_eq_true.mpr ⟨tc, htc, by simp [hre]⟩)

theorem applyToggles_preserves_kinds (ops : List (MKind × Track)) :
    ∀ pc : MPc, pc.transceivers.map Transceiver.receiverKind = [MKind.audio, MKind.video] →
      (applyToggles ops pc).transceivers.map Transceiver.receiverKind =
        [MKind.audio, MKind.video] := by
  induction ops with
  | nil => intro pc h; simpa [applyToggles] using h
  | cons op rest ih =>
      intro pc h
      have hstep := replaceTrackInPc_preserves_kinds op.1 op.2 pc h
      simpa [applyToggles] using ih _ hstep

/-! ## Claim theorems -/

theorem charListLt_asymm : ∀ x y : List Char, charListLt x y = true → charListLt y x = false := by
  intro x
  induction x with
  | nil =>
      intro y h
      cases y with
      | nil => simp [charListLt] at h
      | cons d ds => simp [charListLt]
  | cons c cs ih =>
      intro y h
      cases y with
      | nil => simp [charListLt] at h
      | cons d ds =>
          by_cases h1 : c < d
          · simp [charListLt, h1, lt_asymm h1]
          · by_cases h2 : d < c
            · simp [charListLt, h1, h2] at h
            · simp [charListLt, h1, h2] at h ⊢
              exact ih ds h

theorem charListLt_total : ∀ x y : List Char, x ≠ y →
    charListLt x y = true ∨ charListLt y x = true := by
  intro x
  induction x with
  | nil =>
      intro y h
      cases y with
      | nil => exact absurd rfl h
      | cons d ds => left; simp [charListLt]
  | cons c cs ih =>
      intro y h
      cases y with
      | nil => right; simp [charListLt]
      | cons d ds =>
          by_cases h1 : c < d
          · left; simp [charListLt, h1]
          · by_cases h2 : d < c
            · right; simp [charListLt, h2]
            · have hcd : c = d := le_antisymm (not_lt.mp h2) (not_lt.mp h1)
              subst hcd
              have hne : cs ≠ ds := by
                intro hh
                exact h (by rw [hh])
              rcases ih ds hne with hl | hl
              · left; simp [charListLt, lt_irrefl, hl]
              · right; simp [charListLt, lt_irrefl, hl]

/-- C3: for two sessions with distinct identifiers, exactly one of the two
politeness values is true; each side computes its value from the two
identifiers alone by lexicographic comparison (polite iff the own
identifier compares greater than the peer's), so the two sides always
arrive at complementary roles. -/
theorem polite_assignment_exclusive (a b : String) (h : a ≠ b) :
    (isPolite a b = true ∧ isPolite b a = false) ∨
      (isPolite a b = false ∧ isPolite b a = true) := by
  have hd : a.data ≠ b.data := fun hc => h (String.ext hc)
  rcases charListLt_total a.data b.data hd with hl | hl
  · right
    exact ⟨charListLt_asymm _ _ hl, hl⟩
  · left
    exact ⟨hl, charListLt_asymm _ _ hl⟩

theorem polite_assignment_exclusive_witness :
    ("a" : String) ≠ "b" ∧
      ((isPolite "a" "b" = true ∧ isPolite "b" "a" = false) ∨
        (isPolite "a" "b" = false ∧ isPolite "b" "a" = true)) :=
  ⟨by decide, polite_assignment_exclusive "a" "b" (by decide)⟩

/-- C1: an inbound offer on an existing peer link is ignored exactly when
the receiver is impolite and a collision exists
(`!isPolite && (isMakingOffer || signalingState != stable)`); when
ignored, only the ignore flag changes and nothing is emitted; otherwise
the offer is applied as the remote description (discarding any in-flight
local offer), an answer is produced and emitted, the link ends stable,
and the pending candidate queue is flushed. -/
theorem offer_ignored_iff_impolite_collision
    (selfId fromId : String) (sdp : Sdp) (s : HookState) (pc : Pc)
    (hpc : mget s.peers fromId = some pc) :
    (shouldIgnoreOffer selfId fromId s pc =
      (!(isPolite selfId fromId) &&
        ((mget s.makingOffer fromId).getD false
          || decide (pc.signalingState ≠ SignalingState.stable)))) ∧
    (shouldIgnoreOffer selfId fromId s pc = true →
      onOffer selfId fromId sdp s =
        ({ s with ignoreOffer := mset s.ignoreOffer fromId true }, [])) ∧
    (shouldIgnoreOffer selfId fromId s pc = false →
      onOffer selfId fromId sdp s =
        ({ s with
            ignoreOffer := mset s.ignoreOffer fromId false,
            peers := mset s.peers fromId
              (Pc.mk SignalingState.stable (some sdp) (some (answerFor sdp))
                (pc.applied ++ (mget s.pendingCandidates fromId).getD [])),
            pendingCandidates := merase s.pendingCandidates fromId },
         [ClientOut.answerMsg fromId (answerFor sdp)])) := by
  refine ⟨rfl, ?_, ?_⟩ <;> intro h <;> simp [onOffer, hpc, onOfferWithPc, h]

theorem offer_ignored_iff_impolite_collision_witness :
    onOffer "a" "b" (Sdp.offer 0) (HookState.mk [("b", newPc)] [] [] []) =
      (HookState.mk
        [("b", Pc.mk SignalingState.stable (some (Sdp.offer 0)) (some (Sdp.answer 0)) [])]
        [] [] [("b", false)],
       [ClientOut.answerMsg "b" (Sdp.answer 0)]) :=
  (offer_ignored_iff_impolite_collision "a" "b" (Sdp.offer 0)
    (HookState.mk [("b", newPc)] [] [] []) newPc (by decide)).2.2 (by decide)

/-- C9: a peer connection created from a local stream holding one audio
and one video track has exactly two senders (one per pre-created
transceiver, one audio and one video), and any sequence of capability
toggles replaces the track on the existing sender of the matching kind
without ever adding or removing a sender, so the sender count and the
one-audio-one-video shape are invariant across arbitrary toggle cycles. -/
theorem sender_count_invariant_under_toggles (na nv : Nat) (ops : List (MKind × Track)) :
    senderCount (applyToggles ops
        (createPeerConnection [Track.mk MKind.audio na, Track.mk MKind.video nv])) = 2 ∧
    (applyToggles ops
        (createPeerConnection [Track.mk MKind.audio na, Track.mk MKind.video nv])).transceivers.map
        Transceiver.receiverKind = [MKind.audio, MKind.video] := by
  have hbase : (createPeerConnection
      [Track.mk MKind.audio na, Track.mk MKind.video nv]).transceivers.map
      Transceiver.receiverKind = [MKind.audio, MKind.video] := by
    simp [createPeerConnection, attachTrack]
  have hinv := applyToggles_preserves_kinds ops _ hbase
  refine ⟨?_, hinv⟩
  have hlen := congrArg List.length hinv
  simpa [senderCount] using hlen

/-- C2 counterexample: a candidate that arrives while the ignore-offer
flag is set for its sender is dropped outright — the link has no remote
description, yet the candidate is neither enqueued nor applied and the
state is completely unchanged, refuting the unconditional claim that
such a candidate is enqueued. -/
theorem candidate_dropped_when_ignoring_counterexample :
    (mget (HookState.mk [("b", newPc)] [] [] [("b", true)]).peers "b" = some newPc ∧
      newPc.remoteDesc = none) ∧
    onIceCandidate "b" 7 (HookState.mk [("b", newPc)] [] [] [("b", true)]) =
      HookState.mk [("b", newPc)] [] [] [("b", true)] ∧
    mget (onIceCandidate "b" 7
      (HookState.mk [("b", newPc)] [] [] [("b", true)])).pendingCandidates "b" = none := by
  decide

/-- C2 as amended: provided the ignore-offer flag for the sender is not
set, a candidate arriving on a link with no remote description is
appended to the pending queue, a candidate arriving once a remote
description is applied is applied immediately, and applying a remote
answer appends the whole queue to the applied candidates in receipt
order (none lost, none duplicated) and drops the queue.  While the
ignore-offer flag is set, candidates are dropped entirely. -/
theorem candidate_queue_discipline
    (fromId : String) (cand : Candidate) (sdp : Sdp) (s : HookState) (pc : Pc)
    (hig : (mget s.ignoreOffer fromId).getD false = false)
    (hpc : mget s.peers fromId = some pc) :
    (pc.remoteDesc = none →
      onIceCandidate fromId cand s =
        { s with
          pendingCandidates :=
            mset s.pendingCandidates fromId
              (((mget s.pendingCandidates fromId).getD []) ++ [cand]) }) ∧
    (∀ d, pc.remoteDesc = some d →
      onIceCandidate fromId cand s =
        { s with peers := mset s.peers fromId { pc with applied := pc.applied ++ [cand] } }) ∧
    (mget (onAnswer fromId sdp s).peers fromId =
        some { pc with signalingState := SignalingState.stable,
                       remoteDesc := some sdp,
                       applied := pc.applied ++ (mget s.pendingCandidates fromId).getD [] } ∧
      mget (onAnswer fromId sdp s).pendingCandidates fromId = none) := by
  refine ⟨?_, ?_, ?_⟩
  · intro h
    simp [onIceCandidate, hig, hpc, h]
  · intro d h
    simp [onIceCandidate, hig, hpc, h]
  · constructor
    · simp [onAnswer, hpc, mget_mset_self]
    · simp [onAnswer, hpc, mget_merase_self]

theorem candidate_queue_discipline_witness :
    onIceCandidate "b" 7 (HookState.mk [("b", newPc)] [] [] []) =
      HookState.mk [("b", newPc)] [("b", [7])] [] [] :=
  (candidate_queue_discipline "b" 7 (Sdp.answer 0)
    (HookState.mk [("b", newPc)] [] [] []) newPc (by decide) (by decide)).1 (by decide)

/-- C4 counterexample: the impolite side (own id smaller than the
peer's) that has an offer in flight does not discard it when the polite
peer's offer arrives — it ignores the inbound offer, sends no answer,
and keeps its own local offer, refuting the claim that the impolite side
rolls back and answers. -/
theorem impolite_keeps_own_offer_counterexample :
    isPolite "a" "b" = false ∧
    (onOffer "a" "b" (Sdp.offer 7)
      (HookState.mk
        [("b", Pc.mk SignalingState.haveLocalOffer none (some (Sdp.offer 5)) [])]
        [] [("b", false)] [])).2 = [] ∧
    mget (onOffer "a" "b" (Sdp.offer 7)
      (HookState.mk
        [("b", Pc.mk SignalingState.haveLocalOffer none (some (Sdp.offer 5)) [])]
        [] [("b", false)] [])).1.peers "b" =
      some (Pc.mk SignalingState.haveLocalOffer none (some (Sdp.offer 5)) []) := by
  decide

/-- C4 as amended: it is the polite side that yields — if the polite
side has its own offer in flight (`have-local-offer`) and the impolite
peer's offer arrives, the polite side's offer is discarded by the
rollback of applying the remote offer, an answer is produced and sent,
and the link reaches stable with exactly one applied offer/answer pair
(the peer's offer as remote description and its answer as local
description); the impolite side ignores the colliding offer instead. -/
theorem polite_rolls_back_and_answers
    (selfId fromId : String) (sdp : Sdp) (s : HookState) (pc : Pc)
    (hpol : isPolite selfId fromId = true)
    (hpc : mget s.peers fromId = some pc)
    (_hst : pc.signalingState = SignalingState.haveLocalOffer) :
    onOffer selfId fromId sdp s =
      ({ s with
          ignoreOffer := mset s.ignoreOffer fromId false,
          peers := mset s.peers fromId
            (Pc.mk SignalingState.stable (some sdp) (some (answerFor sdp))
              (pc.applied ++ (mget s.pendingCandidates fromId).getD [])),
          pendingCandidates := merase s.pendingCandidates fromId },
       [ClientOut.answerMsg fromId (answerFor sdp)]) := by
  simp [onOffer, hpc, onOfferWithPc, shouldIgnoreOffer, hpol]

theorem polite_rolls_back_and_answers_witness :
    onOffer "b" "a" (Sdp.offer 7)
      (triggerRenegotiation "a" 5 (HookState.mk [("a", newPc)] [] [] [])).1 =
      (HookState.mk
        [("a", Pc.mk SignalingState.stable (some (Sdp.offer 7)) (some (Sdp.answer 7)) [])]
        [] [("a", false)] [("a", false)],
       [ClientOut.answerMsg "a" (Sdp.answer 7)]) :=
  polite_rolls_back_and_answers "b" "a" (Sdp.offer 7)
    (triggerRenegotiation "a" 5 (HookState.mk [("a", newPc)] [] [] [])).1
    (Pc.mk SignalingState.haveLocalOffer none (some (Sdp.offer 5)) [])
    (by decide) (by decide) (by decide)

/-- C8 counterexample: after the peer leaves and its per-peer state is
discarded, a stray candidate tagged with the departed id is not merely
dropped — it is enqueued onto a freshly re-created pending-candidates
entry for that id, refuting the claim that no per-peer state is
re-created. -/
theorem stray_candidate_enqueued_counterexample :
    mget (onUserLeft "b"
        (HookState.mk
          [("b", Pc.mk SignalingState.stable (some (Sdp.answer 1)) (some (Sdp.offer 1)) [])]
          [("b", [5])] [("b", false)] [("b", false)])).pendingCandidates "b" = none ∧
    mget (onIceCandidate "b" 9 (onUserLeft "b"
        (HookState.mk
          [("b", Pc.mk SignalingState.stable (some (Sdp.answer 1)) (some (Sdp.offer 1)) [])]
          [("b", [5])] [("b", false)] [("b", false)]))).pendingCandidates "b" =
      some [9] := by
  decide

/-- C8 as amended: processing `user-left` releases the peer connection,
discards the queued candidates and clears both per-peer flags; a stray
candidate tagged with the departed id arriving afterwards causes no
error and re-creates no peer connection, but it is enqueued onto a fresh
pending-candidates queue under that id rather than being discarded. -/
theorem user_left_cleanup_and_stray_candidate
    (sid : String) (cand : Candidate) (s : HookState) :
    (mget (onUserLeft sid s).peers sid = none ∧
     mget (onUserLeft sid s).pendingCandidates sid = none ∧
     mget (onUserLeft sid s).makingOffer sid = none ∧
     mget (onUserLeft sid s).ignoreOffer sid = none) ∧
    ((onIceCandidate sid cand (onUserLeft sid s)).peers = (onUserLeft sid s).peers ∧
     mget (onIceCandidate sid cand (onUserLeft sid s)).pendingCandidates sid =
       some [cand]) := by
  refine ⟨⟨?_, ?_, ?_, ?_⟩, ?_, ?_⟩ <;>
    simp [onUserLeft, onIceCandidate, mget_merase_self, mget_mset_self]

/-- C5: the gateway subscribes to no `media-state-change` message kind,
so the message the frontend emits on every camera/mic/screen change is
dropped by the framework: no state is updated and no
`participant-media-state` (nor any other event) is broadcast to the
room. -/
theorem media_state_change_has_no_handler
    (client userId : String) (now : Nat) (roomId mtype : String) (enabled : Bool)
    (s : ServerState) :
    dispatch client userId now (ClientMsg.mediaStateChange roomId mtype enabled) s =
      (s, []) :=
  rfl

/-- C6 counterexample: with sessions s1 and s2 admitted to room r, a
second `join-room` for s1 without an intervening remove is processed
without any `AlreadyMember` failure and broadcasts `user-joined{s1}` to
s2 again, refuting the claim that the second admit fails and emits no
`user-joined`. -/
theorem second_join_emits_user_joined_counterexample :
    mget ((handleJoinRoom "s2" "u2" "r" "Bob"
        (handleJoinRoom "s1" "u1" "r" "Alice" (ServerState.mk [] [])).1).1).participants
        "s1" = some (PInfo.mk "r" "u1" "Alice") ∧
    Delivery.mk "s2" (SEvent.userJoined "s1" "u1" "Alice") ∈
      (handleJoinRoom "s1" "u1" "r" "Alice"
        (handleJoinRoom "s2" "u2" "r" "Bob"
          (handleJoinRoom "s1" "u1" "r" "Alice" (ServerState.mk [] [])).1).1).2 ∧
    ((handleJoinRoom "s1" "u1" "r" "Alice"
        (handleJoinRoom "s2" "u2" "r" "Bob"
          (handleJoinRoom "s1" "u1" "r" "Alice" (ServerState.mk [] [])).1).1).1).participants.length =
      ((handleJoinRoom "s2" "u2" "r" "Bob"
          (handleJoinRoom "s1" "u1" "r" "Alice" (ServerState.mk [] [])).1).1).participants.length := by
  decide

/-- C6 as amended: a second `join-room` for an already admitted session
does not fail — there is no `AlreadyMember` check; the participant entry
is overwritten with the new values (so the map still records at most one
room per session and its size is unchanged) and `user-joined` is
broadcast to the other room members again. -/
theorem second_join_overwrites_without_error
    (client userId roomId userName : String) (s : ServerState)
    (h : mget s.participants client ≠ none) :
    (handleJoinRoom client userId roomId userName s).1.participants.length =
      s.participants.length ∧
    mget (handleJoinRoom client userId roomId userName s).1.participants client =
      some (PInfo.mk roomId userId userName) := by
  have hjp : (joinTransportRoom s client roomId).participants = s.participants := by
    by_cases hmem : client ∈ roomMembers s roomId <;> simp [joinTransportRoom, hmem]
  have hmain : (handleJoinRoom client userId roomId userName s).1.participants =
      mset s.participants client (PInfo.mk roomId userId userName) := by
    simp [handleJoinRoom, hjp]
  constructor
  · rw [hmain, length_mset_mem _ _ _ h]
  · rw [hmain, mget_mset_self]

theorem second_join_overwrites_without_error_witness :
    (handleJoinRoom "s1" "u1" "r" "Alice"
        (ServerState.mk [("s1", PInfo.mk "r" "u1" "Alice")] [("r", ["s1"])])).1.participants.length = 1 ∧
    mget (handleJoinRoom "s1" "u1" "r" "Alice"
        (ServerState.mk [("s1", PInfo.mk "r" "u1" "Alice")] [("r", ["s1"])])).1.participants
        "s1" = some (PInfo.mk "r" "u1" "Alice") :=
  second_join_overwrites_without_error "s1" "u1" "r" "Alice"
    (ServerState.mk [("s1", PInfo.mk "r" "u1" "Alice")] [("r", ["s1"])]) (by decide)

/-- C7 counterexample: a session that is a member of no room at all
sends `chat-message` for room r, and the gateway still broadcasts it to
r's members, refuting the claim that a chat message is processed only
when its sender is a member of the named room. -/
theorem chat_from_nonmember_broadcast_counterexample :
    mget (ServerState.mk [("s1", PInfo.mk "r" "u1" "Alice")] [("r", ["s1"])]).participants
      "s3" = none ∧
    "s3" ∉ roomMembers (ServerState.mk [("s1", PInfo.mk "r" "u1" "Alice")] [("r", ["s1"])]) "r" ∧
    (dispatch "s3" "u3" 42 (ClientMsg.chatMessage "r" "hi" "Mallory")
        (ServerState.mk [("s1", PInfo.mk "r" "u1" "Alice")] [("r", ["s1"])])).2 =
      [Delivery.mk "s1" (SEvent.chatMessage "hi" "Mallory" 42)] := by
  decide

/-- C7 as amended: the gateway relays a chat message without any
membership check — any connected session can broadcast to any room; the
broadcast carries the client-supplied text and display name plus a
single router-assigned timestamp, is delivered to every socket
subscribed to the transport room (the sender included when subscribed),
and every recipient receives the identical timestamp. -/
theorem chat_broadcast_uniform_timestamp
    (client userId roomId message userName : String) (now : Nat) (s : ServerState) :
    (dispatch client userId now (ClientMsg.chatMessage roomId message userName) s).1 = s ∧
    (∀ t, t ∈ roomMembers s roomId →
      Delivery.mk t (SEvent.chatMessage message userName now) ∈
        (dispatch client userId now (ClientMsg.chatMessage roomId message userName) s).2) ∧
    (∀ d, d ∈ (dispatch client userId now
        (ClientMsg.chatMessage roomId message userName) s).2 →
      d.event = SEvent.chatMessage message userName now) := by
  refine ⟨rfl, ?_, ?_⟩
  · intro t ht
    exact List.mem_map.mpr ⟨t, ht, rfl⟩
  · intro d hd
    rcases List.mem_map.mp hd with ⟨t, _, hdt⟩
    rw [← hdt]

theorem chat_broadcast_uniform_timestamp_witness :
    Delivery.mk "s1" (SEvent.chatMessage "hi" "Alice" 42) ∈
      (dispatch "s1" "u1" 42 (ClientMsg.chatMessage "r" "hi" "Alice")
        (ServerState.mk [("s1", PInfo.mk "r" "u1" "Alice")] [("r", ["s1"])])).2 :=
  (chat_broadcast_uniform_timestamp "s1" "u1" "r" "hi" "Alice" 42
    (ServerState.mk [("s1", PInfo.mk "r" "u1" "Alice")] [("r", ["s1"])])).2.1 "s1" (by decide)

theorem mem_roomMembers_joinTransportRoom (s : ServerState) (c roomId x : String)
    (h : x ∈ roomMembers s roomId) :
    x ∈ roomMembers (joinTransportRoom s c roomId) roomId := by
  by_cases hmem : c ∈ roomMembers s roomId
  · simp only [joinTransportRoom]
    rw [if_pos hmem]
    exact h
  · simp only [joinTransportRoom]
    rw [if_neg hmem]
    simp [roomMembers, mget_mset_self]
    exact Or.inl h

/-- C10: processing `leave-room` emits `user-left` to the other room
members and deletes the session's participant entry, but never removes
the socket from the transport room it joined, so the socket keeps
receiving every later broadcast addressed to that room: later chat
messages, `user-joined` broadcasts for new joiners and `user-left`
broadcasts for departing members are all still delivered to it. -/
theorem leave_room_keeps_transport_subscription
    (client : String) (info : PInfo) (s : ServerState)
    (h : mget s.participants client = some info) :
    ((handleLeaveRoom client s).2 =
      ((roomMembers s info.roomId).filter (fun t => t ≠ client)).map
        (fun t => Delivery.mk t (SEvent.userLeft client info.userId info.userName))) ∧
    mget (handleLeaveRoom client s).1.participants client = none ∧
    (handleLeaveRoom client s).1.rooms = s.rooms ∧
    (client ∈ roomMembers s info.roomId →
      ∀ sender senderUserId message userName now,
        Delivery.mk client (SEvent.chatMessage message userName now) ∈
          (dispatch sender senderUserId now
            (ClientMsg.chatMessage info.roomId message userName)
            (handleLeaveRoom client s).1).2) ∧
    (client ∈ roomMembers s info.roomId →
      ∀ joiner joinerUserId joinerName, joiner ≠ client →
        Delivery.mk client (SEvent.userJoined joiner joinerUserId joinerName) ∈
          (handleJoinRoom joiner joinerUserId info.roomId joinerName
            (handleLeaveRoom client s).1).2) ∧
    (client ∈ roomMembers s info.roomId →
      ∀ other otherInfo, other ≠ client →
        mget (handleLeaveRoom client s).1.participants other = some otherInfo →
        otherInfo.roomId = info.roomId →
        Delivery.mk client (SEvent.userLeft other otherInfo.userId otherInfo.userName) ∈
          (handleLeaveRoom other (handleLeaveRoom client s).1).2) := by
  have hred : handleLeaveRoom client s =
      ({ s with participants := merase s.participants client },
       ((roomMembers s info.roomId).filter (fun t => t ≠ client)).map
         (fun t => Delivery.mk t (SEvent.userLeft client info.userId info.userName))) := by
    simp [handleLeaveRoom, h]
  refine ⟨?_, ?_, ?_, ?_, ?_, ?_⟩
  · rw [hred]
  · rw [hred]
    exact mget_merase_self _ _
  · rw [hred]
  · intro hc sender senderUserId message userName now
    rw [hred]
    exact List.mem_map.mpr ⟨client, hc, rfl⟩
  · intro hc joiner joinerUserId joinerName hne
    rw [hred]
    simp only [handleJoinRoom]
    refine List.mem_append_left _ (List.mem_map.mpr ⟨client, ?_, rfl⟩)
    refine List.mem_filter.mpr ⟨?_, ?_⟩
    · exact mem_roomMembers_joinTransportRoom _ _ _ _ hc
    · simpa using Ne.symm hne
  · intro hc other otherInfo hne hmo hroom
    rw [hred] at hmo ⊢
    simp only [handleLeaveRoom, hmo]
    refine List.mem_map.mpr ⟨client, List.mem_filter.mpr ⟨?_, ?_⟩, rfl⟩
    · rw [hroom]
      exact hc
    · simpa using Ne.symm hne

theorem leave_room_keeps_transport_subscription_witness :
    Delivery.mk "s1" (SEvent.chatMessage "hi" "Bob" 42) ∈
      (dispatch "s2" "u2" 42 (ClientMsg.chatMessage "r" "hi" "Bob")
        (handleLeaveRoom "s1"
          (ServerState.mk
            [("s1", PInfo.mk "r" "u1" "Alice"), ("s2", PInfo.mk "r" "u2" "Bob")]
            [("r", ["s1", "s2"])])).1).2 :=
  (leave_room_keeps_transport_subscription "s1" (PInfo.mk "r" "u1" "Alice")
    (ServerState.mk
      [("s1", PInfo.mk "r" "u1" "Alice"), ("s2", PInfo.mk "r" "u2" "Bob")]
      [("r", ["s1", "s2"])]) (by decide)).2.2.2.1 (by decide) "s2" "u2" "hi" "Bob" 42

end Meetify
